import Mathlib

/-
  Verification of the DRL Simulator community master server
  (src/server/master_server.py).

  Shallow embedding notes:
  * Wall-clock time (datetime.utcnow) is modelled as an `Int` number of
    seconds, passed explicitly to every operation that reads the clock.
    ISO-string round-tripping in the Python code is the identity here.
  * `self.sessions : Dict[str, GameSession]` is modelled as an insertion
    ordered association list `List (String × GameSession)` with the three
    dictionary primitives `dictInsert` (replace in place or append),
    `dictGet` (first match) and `dictErase` (remove the entry).
  * `hashlib.sha256(...).hexdigest()` is an opaque pure function; every
    definition that hashes takes it as an explicit parameter `sha`.
  * `str(uuid.uuid4())[:8]` is an externally generated identifier; the
    freshly drawn id is an explicit argument `gen_id` of `create_session`.
  * `asyncio.create_task(self.broadcast_update(...))` schedules a
    fire-and-forget coroutine: the mutation itself only enqueues the
    envelope.  We model the task queue as the `pending` field of the
    server state; actually running the queued tasks (delivering to every
    subscriber) is `runPendingTasks`.  A subscriber (websocket) is
    modelled by the list of envelopes it has received so far.
-/

structure Player where
  steam_id : String
  name : String
  avatar_url : String
  is_host : Bool
  is_spectator : Bool
  joined_at : Int
deriving Repr, DecidableEq

structure GameSession where
  session_id : String
  host_steam_id : String
  host_name : String
  host_avatar_url : String
  host_ip : String
  host_port : Int
  room_name : String
  map_id : String
  track_id : String
  is_custom_track : Bool
  game_mode : String
  max_pilots : Int
  max_spectators : Int
  current_pilots : Int
  current_spectators : Int
  laps : Int
  physics_mode : String
  allow_track_download : Bool
  password_hash : String
  status : String
  created_at : Int
  last_heartbeat : Int
  players : List Player
deriving Repr, DecidableEq

/-- GameSession.is_full: `current_pilots >= max_pilots`. -/
def GameSession.is_full (s : GameSession) : Bool :=
  s.current_pilots ≥ s.max_pilots

/-- GameSession.is_spectator_full: `current_spectators >= max_spectators`. -/
def GameSession.is_spectator_full (s : GameSession) : Bool :=
  s.current_spectators ≥ s.max_spectators

/-- Payload of a broadcast envelope (the `data` field of the JSON message). -/
inductive EventData where
  | sessionData (s : GameSession)
  | sessionIdData (session_id : String)
  | playerData (session_id : String) (p : Player)
  | playerLeftData (session_id : String) (steam_id : String)
deriving Repr, DecidableEq

/-- One broadcast message `{type, data}` (the timestamp field, taken when the
task eventually runs, carries no information used by any claim). -/
structure Envelope where
  type : String
  data : EventData
deriving Repr, DecidableEq

/-- State of the `SessionManager` plus the queue of broadcast tasks that have
been created with `asyncio.create_task` but not yet executed, plus the
connected websockets (each recorded as the list of envelopes it received). -/
structure ServerState where
  sessions : List (String × GameSession)
  session_timeout : Int
  pending : List Envelope
  websockets : List (List Envelope)
deriving Repr, DecidableEq

/-- `SessionManager()` with the default 120 second timeout. -/
def initState : ServerState :=
  { sessions := [], session_timeout := 120, pending := [], websockets := [] }

/-- Python dict assignment `d[k] = v`: replace the value in place if the key
exists, otherwise append the new entry. -/
def dictInsert (k : String) (v : GameSession) :
    List (String × GameSession) → List (String × GameSession)
  | [] => [(k, v)]
  | (k', v') :: rest =>
    if k' = k then (k, v) :: rest else (k', v') :: dictInsert k v rest

/-- Python `d.get(k)`. -/
def dictGet (k : String) : List (String × GameSession) → Option GameSession
  | [] => none
  | (k', v') :: rest => if k' = k then some v' else dictGet k rest

/-- Python `d.pop(k)` (the key side; dict keys are unique). -/
def dictErase (k : String) :
    List (String × GameSession) → List (String × GameSession)
  | [] => []
  | (k', v') :: rest =>
    if k' = k then rest else (k', v') :: dictErase k rest

/-- Python string slice `s[-n:]`. -/
def lastChars (n : Nat) (s : String) : String :=
  s.drop (s.length - n)

/-- `forwarded.split(',')[0].strip()`. -/
def forwardedFirst (f : String) : String :=
  ((f.splitOn ",").headD "").trim

/-- Body of `POST /api/sessions` after JSON decoding.  `host_steam_id` is
`none` when the key is absent (the handler rejects that with 400; the raw
registry call would raise KeyError before mutating anything). -/
structure CreateData where
  host_steam_id : Option String
  host_name : Option String
  host_avatar_url : Option String
  host_ip : Option String
  host_port : Option Int
  room_name : Option String
  map_id : Option String
  track_id : Option String
  is_custom_track : Option Bool
  game_mode : Option String
  max_pilots : Option Int
  max_spectators : Option Int
  laps : Option Int
  physics_mode : Option String
  allow_track_download : Option Bool
  password : Option String
deriving Repr, DecidableEq

/-- A create body with every key absent. -/
def emptyCreateData : CreateData :=
  { host_steam_id := none, host_name := none, host_avatar_url := none,
    host_ip := none, host_port := none, room_name := none, map_id := none,
    track_id := none, is_custom_track := none, game_mode := none,
    max_pilots := none, max_spectators := none, laps := none,
    physics_mode := none, allow_track_download := none, password := none }

/-- SessionManager.create_session.  `gen_id` is the value of
`str(uuid.uuid4())[:8]`, `now` the current clock.  Returns `none` (KeyError,
no state change) when `host_steam_id` is absent from the body. -/
def create_session (sha : String → String) (gen_id : String) (now : Int)
    (data : CreateData) (st : ServerState) :
    Option GameSession × ServerState :=
  match data.host_steam_id with
  | none => (none, st)
  | some hsid =>
    let host_name := data.host_name.getD ("Player_" ++ lastChars 6 hsid)
    let host_avatar_url := data.host_avatar_url.getD ""
    let host_player : Player :=
      { steam_id := hsid, name := host_name, avatar_url := host_avatar_url,
        is_host := true, is_spectator := false, joined_at := now }
    let session : GameSession :=
      { session_id := gen_id
        host_steam_id := hsid
        host_name := host_name
        host_avatar_url := host_avatar_url
        host_ip := data.host_ip.getD "0.0.0.0"
        host_port := data.host_port.getD 5056
        room_name := data.room_name.getD ((data.host_name.getD "Unknown") ++ "\x27s Room")
        map_id := data.map_id.getD "MP-3fd"
        track_id := data.track_id.getD ""
        is_custom_track := data.is_custom_track.getD false
        game_mode := data.game_mode.getD "race"
        max_pilots := min (data.max_pilots.getD 6) 6
        max_spectators := min (data.max_spectators.getD 15) 15
        current_pilots := 1
        current_spectators := 0
        laps := data.laps.getD 3
        physics_mode := data.physics_mode.getD "sim"
        allow_track_download := data.allow_track_download.getD true
        password_hash :=
          match data.password with
          | some p => if p = "" then "" else sha p
          | none => ""
        status := "lobby"
        created_at := now
        last_heartbeat := now
        players := [host_player] }
    (some session,
      { st with
        sessions := dictInsert gen_id session st.sessions,
        pending := st.pending ++ [⟨"session_created", EventData.sessionData session⟩] })

/-- SessionManager.get_session. -/
def get_session (session_id : String) (st : ServerState) : Option GameSession :=
  dictGet session_id st.sessions

/-- Body of `PUT /api/sessions/<id>`: the eight allow-listed keys, each
present or absent, together with the names of whatever other keys the client
sent (the code never reads them). -/
structure UpdateData where
  status : Option String
  current_pilots : Option Int
  current_spectators : Option Int
  map_id : Option String
  track_id : Option String
  is_custom_track : Option Bool
  laps : Option Int
  room_name : Option String
  extra : List String
deriving Repr, DecidableEq

/-- The `for field in updateable: if field in data: setattr(...)` loop of
SessionManager.update_session, followed by the `last_heartbeat` touch; one
match per allow-listed field, in the order of the `updateable` list. -/
def applyUpdate (d : UpdateData) (now : Int) (s : GameSession) : GameSession :=
  let s1 := match d.status with | some v => { s with status := v } | none => s
  let s2 := match d.current_pilots with
    | some v => { s1 with current_pilots := v } | none => s1
  let s3 := match d.current_spectators with
    | some v => { s2 with current_spectators := v } | none => s2
  let s4 := match d.map_id with | some v => { s3 with map_id := v } | none => s3
  let s5 := match d.track_id with | some v => { s4 with track_id := v } | none => s4
  let s6 := match d.is_custom_track with
    | some v => { s5 with is_custom_track := v } | none => s5
  let s7 := match d.laps with | some v => { s6 with laps := v } | none => s6
  let s8 := match d.room_name with | some v => { s7 with room_name := v } | none => s7
  { s8 with last_heartbeat := now }

/-- SessionManager.update_session. -/
def update_session (session_id : String) (now : Int) (d : UpdateData)
    (st : ServerState) : Option GameSession × ServerState :=
  match dictGet session_id st.sessions with
  | none => (none, st)
  | some session =>
    let session' := applyUpdate d now session
    (some session',
      { st with
        sessions := dictInsert session_id session' st.sessions,
        pending := st.pending ++ [⟨"session_updated", EventData.sessionData session'⟩] })

/-- SessionManager.heartbeat (no broadcast). -/
def heartbeat (session_id : String) (now : Int) (st : ServerState) :
    Bool × ServerState :=
  match dictGet session_id st.sessions with
  | none => (false, st)
  | some session =>
    (true,
      { st with
        sessions := dictInsert session_id { session with last_heartbeat := now } st.sessions })

/-- SessionManager.delete_session. -/
def delete_session (session_id : String) (st : ServerState) :
    Bool × ServerState :=
  if (dictGet session_id st.sessions).isSome then
    (true,
      { st with
        sessions := dictErase session_id st.sessions,
        pending := st.pending ++ [⟨"session_deleted", EventData.sessionIdData session_id⟩] })
  else (false, st)

/-- Body of `POST /api/sessions/<id>/join` (`steam_id` is required by
add_player). -/
structure JoinData where
  steam_id : String
  name : Option String
  avatar_url : Option String
  as_spectator : Option Bool
  password : Option String
deriving Repr, DecidableEq

/-- SessionManager.add_player. -/
def add_player (session_id : String) (joined_at : Int) (pd : JoinData)
    (as_spectator : Bool) (st : ServerState) : Option Player × ServerState :=
  match dictGet session_id st.sessions with
  | none => (none, st)
  | some session =>
    let bumped :=
      if as_spectator then
        if session.is_spectator_full then none
        else some { session with current_spectators := session.current_spectators + 1 }
      else
        if session.is_full then none
        else some { session with current_pilots := session.current_pilots + 1 }
    match bumped with
    | none => (none, st)
    | some session' =>
      let player : Player :=
        { steam_id := pd.steam_id,
          name := pd.name.getD ("Player_" ++ lastChars 6 pd.steam_id),
          avatar_url := pd.avatar_url.getD "",
          is_host := false, is_spectator := as_spectator, joined_at := joined_at }
      let session'' := { session' with players := session'.players ++ [player] }
      (some player,
        { st with
          sessions := dictInsert session_id session'' st.sessions,
          pending := st.pending ++ [⟨"player_joined", EventData.playerData session_id player⟩] })

/-- The `for i, player in enumerate(...)` scan of remove_player: pop the
first entry whose steam_id matches. -/
def removeFirst (steam_id : String) :
    List Player → Option (Player × List Player)
  | [] => none
  | p :: rest =>
    if p.steam_id = steam_id then some (p, rest)
    else
      match removeFirst steam_id rest with
      | some (q, rest') => some (q, p :: rest')
      | none => none

/-- SessionManager.remove_player.  The session object is mutated in place
(players popped, counter decremented) and then, when the removed player was
the host, `delete_session` pops the whole entry. -/
def remove_player (session_id : String) (steam_id : String)
    (st : ServerState) : Bool × ServerState :=
  match dictGet session_id st.sessions with
  | none => (false, st)
  | some session =>
    match removeFirst steam_id session.players with
    | none => (false, st)
    | some (removed, rest) =>
      let session' :=
        if removed.is_spectator then
          { session with players := rest,
                         current_spectators := session.current_spectators - 1 }
        else
          { session with players := rest,
                         current_pilots := session.current_pilots - 1 }
      let st1 := { st with sessions := dictInsert session_id session' st.sessions }
      if removed.is_host then
        (true, (delete_session session_id st1).2)
      else
        (true,
          { st1 with
            pending := st1.pending ++ [⟨"player_left", EventData.playerLeftData session_id steam_id⟩] })

/-- SessionManager.cleanup_stale_sessions: collect the stale ids first, then
delete each through the ordinary delete path. -/
def cleanup_stale_sessions (now : Int) (st : ServerState) : ServerState :=
  let stale :=
    (st.sessions.filter
      (fun e => now - e.2.last_heartbeat > st.session_timeout)).map Prod.fst
  stale.foldl (fun acc sid => (delete_session sid acc).2) st

/-- SessionManager.broadcast_update: deliver one envelope to every connected
subscriber (send failures, which merely drop a subscriber, are not modelled;
no claim concerns them). -/
def broadcast_update (e : Envelope) (wss : List (List Envelope)) :
    List (List Envelope) :=
  wss.map (fun received => received ++ [e])

/-- Run every queued fire-and-forget broadcast task, in creation order. -/
def runPendingTasks (st : ServerState) : ServerState :=
  { st with
    websockets := st.pending.foldl (fun wss e => broadcast_update e wss) st.websockets,
    pending := [] }

/-- Outcome of `POST /api/sessions`. -/
inductive CreateResult where
  | badRequest (msg : String)
  | created (s : GameSession)
deriving Repr, DecidableEq

/-- The `create_session` HTTP handler.  `peername` is
`request.transport.get_extra_info('peername')` (the observed peer ip, or
`none` when the transport exposes no peer), `forwarded` the raw
`X-Forwarded-For` header if sent. -/
def create_session_handler (sha : String → String) (gen_id : String)
    (now : Int) (peername : Option String) (forwarded : Option String)
    (body : CreateData) (st : ServerState) : CreateResult × ServerState :=
  match body.host_steam_id with
  | none => (CreateResult.badRequest "host_steam_id is required", st)
  | some _ =>
    let body1 :=
      match peername with
      | some ip => { body with host_ip := some ip }
      | none => body
    let body2 :=
      match forwarded with
      | some f => if f ≠ "" then { body1 with host_ip := some (forwardedFirst f) } else body1
      | none => body1
    match create_session sha gen_id now body2 st with
    | (some s, st') => (CreateResult.created s, st')
    | (none, st') => (CreateResult.badRequest "host_steam_id is required", st')

/-- Outcome of `POST /api/sessions/<id>/join`: 404 / 403 / 409 / 200 with the
connection and track blocks. -/
inductive JoinResult where
  | notFound
  | forbidden
  | conflict
  | joined (host_ip : String) (host_port : Int) (session_id : String)
      (map_id : String) (track_id : String) (is_custom : Bool)
      (download_allowed : Bool)
deriving Repr, DecidableEq

/-- The `join_session` HTTP handler: password digest check first, then
add_player; a `none` from add_player is reported as 409. -/
def join_session (sha : String → String) (session_id : String)
    (joined_at : Int) (data : JoinData) (st : ServerState) :
    JoinResult × ServerState :=
  match dictGet session_id st.sessions with
  | none => (JoinResult.notFound, st)
  | some session =>
    if session.password_hash ≠ "" ∧
        sha (data.password.getD "") ≠ session.password_hash then
      (JoinResult.forbidden, st)
    else
      let as_spectator := data.as_spectator.getD false
      match add_player session_id joined_at data as_spectator st with
      | (none, st') => (JoinResult.conflict, st')
      | (some _, st') =>
        (JoinResult.joined session.host_ip session.host_port session_id
          session.map_id session.track_id session.is_custom_track
          session.allow_track_download, st')

/-- One registry mutation, as dispatched by the request router or the
liveness sweeper. -/
inductive RegistryOp where
  | create (gen_id : String) (now : Int) (data : CreateData)
  | update (session_id : String) (now : Int) (d : UpdateData)
  | delete (session_id : String)
  | join (session_id : String) (joined_at : Int) (d : JoinData)
  | leave (session_id : String) (steam_id : String)
  | beat (session_id : String) (now : Int)
  | cleanup (now : Int)

/-- Effect of one registry operation on the server state. -/
def applyOp (sha : String → String) : RegistryOp → ServerState → ServerState
  | .create gen_id now data, st => (create_session sha gen_id now data st).2
  | .update sid now d, st => (update_session sid now d st).2
  | .delete sid, st => (delete_session sid st).2
  | .join sid t d, st => (join_session sha sid t d st).2
  | .leave sid pid, st => (remove_player sid pid st).2
  | .beat sid now, st => (heartbeat sid now st).2
  | .cleanup now, st => cleanup_stale_sessions now st

/-- Number of non-spectator entries in a player list. -/
def pilotCount (ps : List Player) : Int :=
  ((ps.filter (fun p => !p.is_spectator)).length : Int)

/-- Number of spectator entries in a player list. -/
def spectatorCount (ps : List Player) : Int :=
  ((ps.filter (fun p => p.is_spectator)).length : Int)

/-- The counter invariant of one session: counters agree with the player
list and respect the capacity ceilings. -/
def countersOk (s : GameSession) : Prop :=
  s.current_pilots = pilotCount s.players ∧
  s.current_spectators = spectatorCount s.players ∧
  s.current_pilots ≤ s.max_pilots ∧
  s.current_spectators ≤ s.max_spectators

instance (s : GameSession) : Decidable (countersOk s) := by
  unfold countersOk; infer_instance

/-- Every live session satisfies the counter invariant. -/
def stateInv (st : ServerState) : Prop :=
  ∀ e ∈ st.sessions, countersOk e.2

instance (st : ServerState) : Decidable (stateInv st) := by
  unfold stateInv; infer_instance

/-- Precondition under which one operation preserves the counter invariant:
a create must not ask for an effective pilot ceiling below the host, nor a
negative spectator ceiling, and an update must not set the raw counters. -/
def opOk : RegistryOp → Prop
  | .create _ _ data =>
    1 ≤ min (data.max_pilots.getD 6) 6 ∧ 0 ≤ min (data.max_spectators.getD 15) 15
  | .update _ _ d => d.current_pilots = none ∧ d.current_spectators = none
  | _ => True

instance (op : RegistryOp) : Decidable (opOk op) := by
  cases op <;> (unfold opOk; infer_instance)

theorem dictGet_dictInsert_self (k : String) (v : GameSession)
    (l : List (String × GameSession)) :
    dictGet k (dictInsert k v l) = some v := by
  induction l with
  | nil => simp [dictInsert, dictGet]
  | cons e rest ih =>
    obtain ⟨k', v'⟩ := e
    by_cases h : k' = k
    · simp [dictInsert, dictGet, h]
    · simp [dictInsert, dictGet, h, ih]

theorem dictGet_dictInsert_ne (k k' : String) (v : GameSession)
    (l : List (String × GameSession)) (hne : k' ≠ k) :
    dictGet k' (dictInsert k v l) = dictGet k' l := by
  induction l with
  | nil => simp [dictInsert, dictGet, Ne.symm hne]
  | cons e rest ih =>
    obtain ⟨k0, v0⟩ := e
    by_cases h : k0 = k
    · subst h
      simp [dictInsert, dictGet, Ne.symm hne]
    · simp only [dictInsert, if_neg h]
      by_cases h' : k0 = k'
      · simp [dictGet, h']
      · simp [dictGet, h', ih]

theorem dictErase_dictInsert (k : String) (v : GameSession)
    (l : List (String × GameSession)) :
    dictErase k (dictInsert k v l) = dictErase k l := by
  induction l with
  | nil => simp [dictInsert, dictErase]
  | cons e rest ih =>
    obtain ⟨k0, v0⟩ := e
    by_cases h : k0 = k
    · simp [dictInsert, dictErase, h]
    · simp [dictInsert, dictErase, h, ih]

theorem mem_dictInsert (k : String) (v : GameSession) (e : String × GameSession)
    (l : List (String × GameSession)) (h : e ∈ dictInsert k v l) :
    e = (k, v) ∨ e ∈ l := by
  induction l with
  | nil => simpa [dictInsert] using h
  | cons e0 rest ih =>
    obtain ⟨k0, v0⟩ := e0
    by_cases h0 : k0 = k
    · simp only [dictInsert, if_pos h0, List.mem_cons] at h
      rcases h with h | h
      · exact Or.inl h
      · exact Or.inr (List.mem_cons_of_mem _ h)
    · simp only [dictInsert, if_neg h0, List.mem_cons] at h
      rcases h with h | h
      · exact Or.inr (h ▸ List.mem_cons_self _ _)
      · rcases ih h with h' | h'
        · exact Or.inl h'
        · exact Or.inr (List.mem_cons_of_mem _ h')

theorem mem_dictErase (k : String) (e : String × GameSession)
    (l : List (String × GameSession)) (h : e ∈ dictErase k l) : e ∈ l := by
  induction l with
  | nil => simp [dictErase] at h
  | cons e0 rest ih =>
    obtain ⟨k0, v0⟩ := e0
    by_cases h0 : k0 = k
    · simp only [dictErase, if_pos h0] at h
      exact List.mem_cons_of_mem _ h
    · simp only [dictErase, if_neg h0, List.mem_cons] at h
      rcases h with h | h
      · exact h ▸ List.mem_cons_self _ _
      · exact List.mem_cons_of_mem _ (ih h)

theorem dictGet_eq_none_of_not_mem (k : String)
    (l : List (String × GameSession)) (h : k ∉ l.map Prod.fst) :
    dictGet k l = none := by
  induction l with
  | nil => simp [dictGet]
  | cons e rest ih =>
    obtain ⟨k0, v0⟩ := e
    simp only [List.map_cons, List.mem_cons] at h
    push_neg at h
    simp [dictGet, Ne.symm h.1, ih h.2]

theorem not_mem_of_dictGet_eq_none (k : String)
    (l : List (String × GameSession)) (h : dictGet k l = none) :
    k ∉ l.map Prod.fst := by
  induction l with
  | nil => simp
  | cons e rest ih =>
    obtain ⟨k0, v0⟩ := e
    by_cases h0 : k0 = k
    · simp [dictGet, h0] at h
    · simp only [dictGet, if_neg h0] at h
      simp only [List.map_cons, List.mem_cons]
      push_neg
      exact ⟨Ne.symm h0, ih h⟩

theorem dictGet_isSome_of_mem (k : String)
    (l : List (String × GameSession)) (h : k ∈ l.map Prod.fst) :
    (dictGet k l).isSome := by
  induction l with
  | nil => simp at h
  | cons e rest ih =>
    obtain ⟨k0, v0⟩ := e
    by_cases h0 : k0 = k
    · simp [dictGet, h0]
    · simp only [List.map_cons, List.mem_cons] at h
      rcases h with h | h
      · exact absurd h.symm h0
      · simp [dictGet, h0, ih h]

theorem dictInsert_eq_append (k : String) (v : GameSession)
    (l : List (String × GameSession)) (h : dictGet k l = none) :
    dictInsert k v l = l ++ [(k, v)] := by
  induction l with
  | nil => simp [dictInsert]
  | cons e rest ih =>
    obtain ⟨k0, v0⟩ := e
    by_cases h0 : k0 = k
    · simp [dictGet, h0] at h
    · simp only [dictGet, if_neg h0] at h
      simp [dictInsert, h0, ih h]

theorem dictGet_dictErase_self (k : String)
    (l : List (String × GameSession)) (h : (l.map Prod.fst).Nodup) :
    dictGet k (dictErase k l) = none := by
  induction l with
  | nil => simp [dictErase, dictGet]
  | cons e rest ih =>
    obtain ⟨k0, v0⟩ := e
    simp only [List.map_cons, List.nodup_cons] at h
    by_cases h0 : k0 = k
    · subst h0
      simp only [dictErase, if_pos rfl]
      exact dictGet_eq_none_of_not_mem _ _ h.1
    · simp [dictErase, dictGet, h0, ih h.2]

theorem applyUpdate_eq (d : UpdateData) (now : Int) (s : GameSession) :
    applyUpdate d now s =
      { s with
        status := d.status.getD s.status,
        current_pilots := d.current_pilots.getD s.current_pilots,
        current_spectators := d.current_spectators.getD s.current_spectators,
        map_id := d.map_id.getD s.map_id,
        track_id := d.track_id.getD s.track_id,
        is_custom_track := d.is_custom_track.getD s.is_custom_track,
        laps := d.laps.getD s.laps,
        room_name := d.room_name.getD s.room_name,
        last_heartbeat := now } := by
  obtain ⟨o1, o2, o3, o4, o5, o6, o7, o8, ex⟩ := d
  cases o1 <;> cases o2 <;> cases o3 <;> cases o4 <;>
    cases o5 <;> cases o6 <;> cases o7 <;> cases o8 <;> rfl

theorem pilotCount_cons (q : Player) (l : List Player) :
    pilotCount (q :: l) = (if q.is_spectator then 0 else 1) + pilotCount l := by
  cases h : q.is_spectator <;> (simp [pilotCount, List.filter_cons, h]; try omega)

theorem spectatorCount_cons (q : Player) (l : List Player) :
    spectatorCount (q :: l) = (if q.is_spectator then 1 else 0) + spectatorCount l := by
  cases h : q.is_spectator <;> (simp [spectatorCount, List.filter_cons, h]; try omega)

theorem pilotCount_append (l1 l2 : List Player) :
    pilotCount (l1 ++ l2) = pilotCount l1 + pilotCount l2 := by
  simp [pilotCount, List.filter_append]

theorem spectatorCount_append (l1 l2 : List Player) :
    spectatorCount (l1 ++ l2) = spectatorCount l1 + spectatorCount l2 := by
  simp [spectatorCount, List.filter_append]

theorem removeFirst_counts (sid : String) (l : List Player) (p : Player)
    (rest : List Player) (h : removeFirst sid l = some (p, rest)) :
    pilotCount l = (if p.is_spectator then 0 else 1) + pilotCount rest ∧
    spectatorCount l = (if p.is_spectator then 1 else 0) + spectatorCount rest := by
  induction l generalizing rest with
  | nil => simp [removeFirst] at h
  | cons q l ih =>
    by_cases hq : q.steam_id = sid
    · simp only [removeFirst, if_pos hq, Option.some.injEq, Prod.mk.injEq] at h
      obtain ⟨hp, hrest⟩ := h
      subst hp; subst hrest
      exact ⟨pilotCount_cons _ _, spectatorCount_cons _ _⟩
    · simp only [removeFirst, if_neg hq] at h
      cases hr : removeFirst sid l with
      | none => rw [hr] at h; simp at h
      | some pr =>
        obtain ⟨p', rest'⟩ := pr
        rw [hr] at h
        simp only [Option.some.injEq, Prod.mk.injEq] at h
        obtain ⟨hp, hrest⟩ := h
        subst hp; subst hrest
        obtain ⟨h1, h2⟩ := ih rest' hr
        constructor
        · rw [pilotCount_cons, pilotCount_cons, h1]; ring
        · rw [spectatorCount_cons, spectatorCount_cons, h2]; ring

theorem removeFirst_append (sid : String) (l l2 : List Player) (p : Player)
    (rest : List Player) (h : removeFirst sid l = some (p, rest)) :
    removeFirst sid (l ++ l2) = some (p, rest ++ l2) := by
  induction l generalizing rest with
  | nil => simp [removeFirst] at h
  | cons q l ih =>
    by_cases hq : q.steam_id = sid
    · simp only [removeFirst, if_pos hq, Option.some.injEq, Prod.mk.injEq] at h
      obtain ⟨hp, hrest⟩ := h
      subst hp; subst hrest
      simp [removeFirst, hq]
    · simp only [removeFirst, if_neg hq] at h
      cases hr : removeFirst sid l with
      | none => rw [hr] at h; simp at h
      | some pr =>
        obtain ⟨p', rest'⟩ := pr
        rw [hr] at h
        simp only [Option.some.injEq, Prod.mk.injEq] at h
        obtain ⟨hp, hrest⟩ := h
        subst hp; subst hrest
        have hstep := ih rest' hr
        simp [removeFirst, hq, hstep]

theorem mem_keys_of_mem_keys_dictErase (k k' : String)
    (l : List (String × GameSession))
    (h : k' ∈ (dictErase k l).map Prod.fst) : k' ∈ l.map Prod.fst := by
  simp only [List.mem_map] at h ⊢
  obtain ⟨e, he, hk⟩ := h
  exact ⟨e, mem_dictErase k e l he, hk⟩

theorem keys_dictErase_nodup (k : String)
    (l : List (String × GameSession)) (h : (l.map Prod.fst).Nodup) :
    ((dictErase k l).map Prod.fst).Nodup := by
  induction l with
  | nil => simp [dictErase]
  | cons e rest ih =>
    obtain ⟨k0, v0⟩ := e
    simp only [List.map_cons, List.nodup_cons] at h
    by_cases h0 : k0 = k
    · simpa [dictErase, h0] using h.2
    · simp only [dictErase, if_neg h0, List.map_cons, List.nodup_cons]
      exact ⟨fun hmem => h.1 (mem_keys_of_mem_keys_dictErase k k0 rest hmem), ih h.2⟩

/-- A concrete digest function usable in witnesses (the theorems hold for
every `sha`). -/
def shaId : String → String := fun s => s

/-- Host player fixture. -/
def hostP : Player :=
  { steam_id := "host42", name := "Host", avatar_url := "", is_host := true,
    is_spectator := false, joined_at := 0 }

/-- Session fixture: a freshly created open session hosted by hostP. -/
def baseSession : GameSession :=
  { session_id := "sess1", host_steam_id := "host42", host_name := "Host",
    host_avatar_url := "", host_ip := "9.9.9.9", host_port := 5056,
    room_name := "Room", map_id := "MP-3fd", track_id := "",
    is_custom_track := false, game_mode := "race", max_pilots := 6,
    max_spectators := 15, current_pilots := 1, current_spectators := 0,
    laps := 3, physics_mode := "sim", allow_track_download := true,
    password_hash := "", status := "lobby", created_at := 0,
    last_heartbeat := 0, players := [hostP] }

/-- Registry fixture holding exactly baseSession. -/
def baseState : ServerState :=
  { sessions := [("sess1", baseSession)], session_timeout := 120,
    pending := [], websockets := [] }

/-- Claim C3: for every session that has a password digest, a join request
whose supplied password does not hash to that digest returns Forbidden and
changes nothing: no counter is incremented, no player is appended, and the
session is otherwise untouched. -/
theorem join_wrong_password_forbidden (sha : String → String)
    (sid : String) (t : Int) (d : JoinData) (st : ServerState)
    (s : GameSession)
    (hs : get_session sid st = some s)
    (hpw : s.password_hash ≠ "")
    (hbad : sha (d.password.getD "") ≠ s.password_hash) :
    join_session sha sid t d st = (JoinResult.forbidden, st) := by
  have hs' : dictGet sid st.sessions = some s := hs
  unfold join_session
  rw [hs']
  dsimp only
  rw [if_pos ⟨hpw, hbad⟩]

theorem join_wrong_password_forbidden_witness :
    join_session shaId "sess1" 7
      { steam_id := "p2", name := none, avatar_url := none,
        as_spectator := none, password := some "guess" }
      { baseState with
        sessions := [("sess1", { baseSession with password_hash := "pw" })] }
      = (JoinResult.forbidden,
          { baseState with
            sessions := [("sess1", { baseSession with password_hash := "pw" })] }) :=
  join_wrong_password_forbidden shaId "sess1" 7
    { steam_id := "p2", name := none, avatar_url := none,
      as_spectator := none, password := some "guess" }
    { baseState with
      sessions := [("sess1", { baseSession with password_hash := "pw" })] }
    { baseSession with password_hash := "pw" }
    (by decide) (by decide) (by decide)

/-- Claim C4: for every session at the relevant capacity ceiling, a join
request that passes the password check returns Conflict and leaves the state
(counters, player list, registry) completely unchanged; the pilot ceiling is
checked for non-spectator joins and the spectator ceiling for spectator
joins. -/
theorem join_full_conflict (sha : String → String) (sid : String) (t : Int)
    (d : JoinData) (st : ServerState) (s : GameSession)
    (hs : get_session sid st = some s)
    (hpw : ¬(s.password_hash ≠ "" ∧
             sha (d.password.getD "") ≠ s.password_hash))
    (hfull : if d.as_spectator.getD false then
               s.current_spectators ≥ s.max_spectators
             else s.current_pilots ≥ s.max_pilots) :
    join_session sha sid t d st = (JoinResult.conflict, st) := by
  have hs' : dictGet sid st.sessions = some s := hs
  unfold join_session
  rw [hs']
  dsimp only
  rw [if_neg hpw]
  unfold add_player
  rw [hs']
  dsimp only
  cases hsp : d.as_spectator.getD false with
  | true =>
    rw [hsp] at hfull
    simp at hfull
    simp [GameSession.is_spectator_full, hfull]
  | false =>
    rw [hsp] at hfull
    simp at hfull
    simp [GameSession.is_full, hfull]

theorem join_full_conflict_witness :
    join_session shaId "sess1" 7
      { steam_id := "p2", name := none, avatar_url := none,
        as_spectator := none, password := none }
      { baseState with
        sessions := [("sess1", { baseSession with current_pilots := 6 })] }
      = (JoinResult.conflict,
          { baseState with
            sessions := [("sess1", { baseSession with current_pilots := 6 })] }) :=
  join_full_conflict shaId "sess1" 7
    { steam_id := "p2", name := none, avatar_url := none,
      as_spectator := none, password := none }
    { baseState with
      sessions := [("sess1", { baseSession with current_pilots := 6 })] }
    { baseSession with current_pilots := 6 }
    (by decide) (by decide) (by decide)

/-- Claim C5: leave with the host identity (the first player matching that
steam_id being the host) removes the whole session from the registry: the
call reports success, the registry equals the old registry with that entry
erased, a subsequent get returns NotFound, and no entry for that session id
remains anywhere. -/
theorem leave_host_deletes_session (sid steam_id : String)
    (st : ServerState) (s : GameSession) (p : Player) (rest : List Player)
    (hs : get_session sid st = some s)
    (hr : removeFirst steam_id s.players = some (p, rest))
    (hhost : p.is_host = true)
    (hnd : (st.sessions.map Prod.fst).Nodup) :
    (remove_player sid steam_id st).1 = true ∧
    (remove_player sid steam_id st).2.sessions = dictErase sid st.sessions ∧
    get_session sid (remove_player sid steam_id st).2 = none ∧
    ∀ e ∈ (remove_player sid steam_id st).2.sessions, e.1 ≠ sid := by
  have hs' : dictGet sid st.sessions = some s := hs
  have hres : remove_player sid steam_id st =
      (true,
        { st with
          sessions := dictErase sid st.sessions,
          pending := st.pending ++ [⟨"session_deleted", EventData.sessionIdData sid⟩] }) := by
    unfold remove_player
    rw [hs']
    dsimp only
    rw [hr]
    dsimp only
    rw [hhost]
    simp only [if_true, delete_session, dictGet_dictInsert_self,
      Option.isSome_some, dictErase_dictInsert]
  refine ⟨by rw [hres], by rw [hres], ?_, ?_⟩
  · show dictGet sid (remove_player sid steam_id st).2.sessions = none
    rw [hres]
    exact dictGet_dictErase_self sid st.sessions hnd
  · intro e he heq
    rw [hres] at he
    have hmem : sid ∈ (dictErase sid st.sessions).map Prod.fst := by
      exact List.mem_map.mpr ⟨e, he, heq⟩
    have := dictGet_isSome_of_mem sid _ hmem
    rw [dictGet_dictErase_self sid st.sessions hnd] at this
    simp at this

theorem leave_host_deletes_session_witness :
    (remove_player "sess1" "host42" baseState).1 = true ∧
    (remove_player "sess1" "host42" baseState).2.sessions =
      dictErase "sess1" baseState.sessions ∧
    get_session "sess1" (remove_player "sess1" "host42" baseState).2 = none ∧
    ∀ e ∈ (remove_player "sess1" "host42" baseState).2.sessions,
      e.1 ≠ "sess1" :=
  leave_host_deletes_session "sess1" "host42" baseState baseSession hostP []
    (by decide) (by decide) (by decide) (by decide)

/-- Claim C6: for every live session, update applies exactly the allow-listed
fields {status, current_pilots, current_spectators, map_id, track_id,
is_custom_track, laps, room_name} (each taken from the input when present,
kept otherwise), sets last_heartbeat to the current time, leaves every other
session field unchanged, and ignores every non-allow-listed key of the
input. -/
theorem update_applies_allowlist_only (sid : String) (now : Int)
    (d : UpdateData) (st : ServerState) (s : GameSession)
    (hs : get_session sid st = some s) :
    ∃ s', update_session sid now d st =
        (some s',
          { st with
            sessions := dictInsert sid s' st.sessions,
            pending := st.pending ++ [⟨"session_updated", EventData.sessionData s'⟩] }) ∧
      s'.status = d.status.getD s.status ∧
      s'.current_pilots = d.current_pilots.getD s.current_pilots ∧
      s'.current_spectators = d.current_spectators.getD s.current_spectators ∧
      s'.map_id = d.map_id.getD s.map_id ∧
      s'.track_id = d.track_id.getD s.track_id ∧
      s'.is_custom_track = d.is_custom_track.getD s.is_custom_track ∧
      s'.laps = d.laps.getD s.laps ∧
      s'.room_name = d.room_name.getD s.room_name ∧
      s'.last_heartbeat = now ∧
      s'.session_id = s.session_id ∧
      s'.host_steam_id = s.host_steam_id ∧
      s'.host_name = s.host_name ∧
      s'.host_avatar_url = s.host_avatar_url ∧
      s'.host_ip = s.host_ip ∧
      s'.host_port = s.host_port ∧
      s'.game_mode = s.game_mode ∧
      s'.max_pilots = s.max_pilots ∧
      s'.max_spectators = s.max_spectators ∧
      s'.physics_mode = s.physics_mode ∧
      s'.allow_track_download = s.allow_track_download ∧
      s'.password_hash = s.password_hash ∧
      s'.created_at = s.created_at ∧
      s'.players = s.players ∧
      ∀ extra2, update_session sid now { d with extra := extra2 } st =
        update_session sid now d st := by
  have hs' : dictGet sid st.sessions = some s := hs
  refine ⟨applyUpdate d now s, ?_, ?_⟩
  · unfold update_session
    rw [hs']
  · rw [applyUpdate_eq]
    refine ⟨rfl, rfl, rfl, rfl, rfl, rfl, rfl, rfl, rfl, rfl, rfl, rfl,
      rfl, rfl, rfl, rfl, rfl, rfl, rfl, rfl, rfl, rfl, rfl, ?_⟩
    intro extra2
    unfold update_session
    rw [hs']
    dsimp only
    rw [applyUpdate_eq, applyUpdate_eq]

theorem update_applies_allowlist_only_witness :
    ∃ s', update_session "sess1" 55
        { status := some "in_race", current_pilots := none,
          current_spectators := none, map_id := none, track_id := none,
          is_custom_track := none, laps := some 5, room_name := none,
          extra := ["password_hash", "host_steam_id"] } baseState =
        (some s',
          { baseState with
            sessions := dictInsert "sess1" s' baseState.sessions,
            pending := baseState.pending ++ [⟨"session_updated", EventData.sessionData s'⟩] }) ∧
      s'.status = "in_race" ∧
      s'.current_pilots = baseSession.current_pilots ∧
      s'.current_spectators = baseSession.current_spectators ∧
      s'.map_id = baseSession.map_id ∧
      s'.track_id = baseSession.track_id ∧
      s'.is_custom_track = baseSession.is_custom_track ∧
      s'.laps = 5 ∧
      s'.room_name = baseSession.room_name ∧
      s'.last_heartbeat = 55 ∧
      s'.session_id = baseSession.session_id ∧
      s'.host_steam_id = baseSession.host_steam_id ∧
      s'.host_name = baseSession.host_name ∧
      s'.host_avatar_url = baseSession.host_avatar_url ∧
      s'.host_ip = baseSession.host_ip ∧
      s'.host_port = baseSession.host_port ∧
      s'.game_mode = baseSession.game_mode ∧
      s'.max_pilots = baseSession.max_pilots ∧
      s'.max_spectators = baseSession.max_spectators ∧
      s'.physics_mode = baseSession.physics_mode ∧
      s'.allow_track_download = baseSession.allow_track_download ∧
      s'.password_hash = baseSession.password_hash ∧
      s'.created_at = baseSession.created_at ∧
      s'.players = baseSession.players ∧
      ∀ extra2, update_session "sess1" 55
          { status := some "in_race", current_pilots := none,
            current_spectators := none, map_id := none, track_id := none,
            is_custom_track := none, laps := some 5, room_name := none,
            extra := extra2 } baseState =
        update_session "sess1" 55
          { status := some "in_race", current_pilots := none,
            current_spectators := none, map_id := none, track_id := none,
            is_custom_track := none, laps := some 5, room_name := none,
            extra := ["password_hash", "host_steam_id"] } baseState :=
  update_applies_allowlist_only "sess1" 55
    { status := some "in_race", current_pilots := none,
      current_spectators := none, map_id := none, track_id := none,
      is_custom_track := none, laps := some 5, room_name := none,
      extra := ["password_hash", "host_steam_id"] } baseState baseSession
    (by decide)

/-- Claim C10 (amended): join never checks whether the joining identity is
already in the session: with free capacity and a passing password check, a
join whose steam_id already occurs in the player list succeeds and appends a
second entry with that steam_id; a subsequent leave with that steam_id
removes only the first matching entry and the appended duplicate survives,
provided that first matching entry is not the host (a host first-match
cascades into whole-session deletion instead). -/
theorem join_duplicate_then_leave (sha : String → String) (sid : String)
    (t : Int) (d : JoinData) (st : ServerState) (s : GameSession)
    (q : Player) (rest : List Player)
    (hs : get_session sid st = some s)
    (hq : removeFirst d.steam_id s.players = some (q, rest))
    (hnothost : q.is_host = false)
    (hpw : ¬(s.password_hash ≠ "" ∧
             sha (d.password.getD "") ≠ s.password_hash))
    (hcap : if d.as_spectator.getD false then
              s.current_spectators < s.max_spectators
            else s.current_pilots < s.max_pilots) :
    ∃ newP s1,
      newP.steam_id = d.steam_id ∧ newP.is_host = false ∧
      s1.players = s.players ++ [newP] ∧
      join_session sha sid t d st =
        (JoinResult.joined s.host_ip s.host_port sid s.map_id s.track_id
           s.is_custom_track s.allow_track_download,
         { st with
           sessions := dictInsert sid s1 st.sessions,
           pending := st.pending ++ [⟨"player_joined", EventData.playerData sid newP⟩] }) ∧
      (remove_player sid d.steam_id (join_session sha sid t d st).2).1 = true ∧
      (get_session sid
          (remove_player sid d.steam_id (join_session sha sid t d st).2).2).map
        GameSession.players = some (rest ++ [newP]) := by
  have hs' : dictGet sid st.sessions = some s := hs
  cases hsp : d.as_spectator.getD false with
  | true =>
    rw [hsp] at hcap
    simp at hcap
    have hnotfull : s.is_spectator_full = false := by
      simp only [GameSession.is_spectator_full, decide_eq_false_iff_not]
      omega
    refine ⟨{ steam_id := d.steam_id,
              name := d.name.getD ("Player_" ++ lastChars 6 d.steam_id),
              avatar_url := d.avatar_url.getD "", is_host := false,
              is_spectator := true, joined_at := t },
            { s with current_spectators := s.current_spectators + 1,
                     players := s.players ++
                       [{ steam_id := d.steam_id,
                          name := d.name.getD ("Player_" ++ lastChars 6 d.steam_id),
                          avatar_url := d.avatar_url.getD "", is_host := false,
                          is_spectator := true, joined_at := t }] },
            rfl, rfl, rfl, ?_⟩
    have hadd : add_player sid t d true st =
        (some { steam_id := d.steam_id,
                name := d.name.getD ("Player_" ++ lastChars 6 d.steam_id),
                avatar_url := d.avatar_url.getD "", is_host := false,
                is_spectator := true, joined_at := t },
          { st with
            sessions := dictInsert sid
              { s with current_spectators := s.current_spectators + 1,
                       players := s.players ++
                         [{ steam_id := d.steam_id,
                            name := d.name.getD ("Player_" ++ lastChars 6 d.steam_id),
                            avatar_url := d.avatar_url.getD "", is_host := false,
                            is_spectator := true, joined_at := t }] } st.sessions,
            pending := st.pending ++
              [⟨"player_joined", EventData.playerData sid
                 { steam_id := d.steam_id,
                   name := d.name.getD ("Player_" ++ lastChars 6 d.steam_id),
                   avatar_url := d.avatar_url.getD "", is_host := false,
                   is_spectator := true, joined_at := t }⟩] }) := by
      unfold add_player
      rw [hs']
      dsimp only
      rw [hnotfull]
      simp only [Bool.false_eq_true, if_false, if_true]
      try rfl
    have hjoin : join_session sha sid t d st =
        (JoinResult.joined s.host_ip s.host_port sid s.map_id s.track_id
           s.is_custom_track s.allow_track_download,
         (add_player sid t d true st).2) := by
      unfold join_session
      rw [hs']
      dsimp only
      rw [if_neg hpw, hsp, hadd]
    refine ⟨by rw [hjoin, hadd], ?_, ?_⟩
    · rw [hjoin, hadd]
      unfold remove_player
      dsimp only
      rw [dictGet_dictInsert_self]
      dsimp only
      rw [removeFirst_append _ _ _ _ _ hq]
      dsimp only
      rw [hnothost]
      cases hqs : q.is_spectator <;> simp
    · rw [hjoin, hadd]
      unfold remove_player
      dsimp only
      rw [dictGet_dictInsert_self]
      dsimp only
      rw [removeFirst_append _ _ _ _ _ hq]
      dsimp only
      rw [hnothost]
      simp only [Bool.false_eq_true, if_false]
      cases hqs : q.is_spectator
      · simp only [Bool.false_eq_true, if_false]
        show (dictGet sid _).map GameSession.players = _
        rw [dictGet_dictInsert_self]
        rfl
      · simp only [if_true]
        show (dictGet sid _).map GameSession.players = _
        rw [dictGet_dictInsert_self]
        rfl
  | false =>
    rw [hsp] at hcap
    simp at hcap
    have hnotfull : s.is_full = false := by
      simp only [GameSession.is_full, decide_eq_false_iff_not]
      omega
    refine ⟨{ steam_id := d.steam_id,
              name := d.name.getD ("Player_" ++ lastChars 6 d.steam_id),
              avatar_url := d.avatar_url.getD "", is_host := false,
              is_spectator := false, joined_at := t },
            { s with current_pilots := s.current_pilots + 1,
                     players := s.players ++
                       [{ steam_id := d.steam_id,
                          name := d.name.getD ("Player_" ++ lastChars 6 d.steam_id),
                          avatar_url := d.avatar_url.getD "", is_host := false,
                          is_spectator := false, joined_at := t }] },
            rfl, rfl, rfl, ?_⟩
    have hadd : add_player sid t d false st =
        (some { steam_id := d.steam_id,
                name := d.name.getD ("Player_" ++ lastChars 6 d.steam_id),
                avatar_url := d.avatar_url.getD "", is_host := false,
                is_spectator := false, joined_at := t },
          { st with
            sessions := dictInsert sid
              { s with current_pilots := s.current_pilots + 1,
                       players := s.players ++
                         [{ steam_id := d.steam_id,
                            name := d.name.getD ("Player_" ++ lastChars 6 d.steam_id),
                            avatar_url := d.avatar_url.getD "", is_host := false,
                            is_spectator := false, joined_at := t }] } st.sessions,
            pending := st.pending ++
              [⟨"player_joined", EventData.playerData sid
                 { steam_id := d.steam_id,
                   name := d.name.getD ("Player_" ++ lastChars 6 d.steam_id),
                   avatar_url := d.avatar_url.getD "", is_host := false,
                   is_spectator := false, joined_at := t }⟩] }) := by
      unfold add_player
      rw [hs']
      dsimp only
      rw [hnotfull]
      simp only [Bool.false_eq_true, if_false]
      try rfl
    have hjoin : join_session sha sid t d st =
        (JoinResult.joined s.host_ip s.host_port sid s.map_id s.track_id
           s.is_custom_track s.allow_track_download,
         (add_player sid t d false st).2) := by
      unfold join_session
      rw [hs']
      dsimp only
      rw [if_neg hpw, hsp, hadd]
    refine ⟨by rw [hjoin, hadd], ?_, ?_⟩
    · rw [hjoin, hadd]
      unfold remove_player
      dsimp only
      rw [dictGet_dictInsert_self]
      dsimp only
      rw [removeFirst_append _ _ _ _ _ hq]
      dsimp only
      rw [hnothost]
      cases hqs : q.is_spectator <;> simp
    · rw [hjoin, hadd]
      unfold remove_player
      dsimp only
      rw [dictGet_dictInsert_self]
      dsimp only
      rw [removeFirst_append _ _ _ _ _ hq]
      dsimp only
      rw [hnothost]
      simp only [Bool.false_eq_true, if_false]
      cases hqs : q.is_spectator
      · simp only [Bool.false_eq_true, if_false]
        show (dictGet sid _).map GameSession.players = _
        rw [dictGet_dictInsert_self]
        rfl
      · simp only [if_true]
        show (dictGet sid _).map GameSession.players = _
        rw [dictGet_dictInsert_self]
        rfl

/-- Non-host member fixture already present in the session. -/
def memberP : Player :=
  { steam_id := "p7", name := "Mem", avatar_url := "", is_host := false,
    is_spectator := false, joined_at := 1 }

/-- Session fixture with a host and one non-host member. -/
def dupSession : GameSession :=
  { baseSession with current_pilots := 2, players := [hostP, memberP] }

/-- Registry fixture holding dupSession. -/
def dupState : ServerState :=
  { baseState with sessions := [("sess1", dupSession)] }

/-- Join body reusing the member steam_id p7. -/
def dupJoinData : JoinData :=
  { steam_id := "p7", name := none, avatar_url := none,
    as_spectator := none, password := none }

/-- Join body reusing the host steam_id. -/
def hostJoinData : JoinData :=
  { steam_id := "host42", name := none, avatar_url := none,
    as_spectator := none, password := none }

theorem join_duplicate_then_leave_witness :
    ∃ newP s1,
      newP.steam_id = "p7" ∧ newP.is_host = false ∧
      s1.players = dupSession.players ++ [newP] ∧
      join_session shaId "sess1" 9 dupJoinData dupState =
        (JoinResult.joined dupSession.host_ip dupSession.host_port "sess1"
           dupSession.map_id dupSession.track_id dupSession.is_custom_track
           dupSession.allow_track_download,
         { dupState with
           sessions := dictInsert "sess1" s1 dupState.sessions,
           pending := dupState.pending ++
             [⟨"player_joined", EventData.playerData "sess1" newP⟩] }) ∧
      (remove_player "sess1" "p7"
          (join_session shaId "sess1" 9 dupJoinData dupState).2).1 = true ∧
      (get_session "sess1"
          (remove_player "sess1" "p7"
            (join_session shaId "sess1" 9 dupJoinData dupState).2).2).map
        GameSession.players = some ([hostP] ++ [newP]) :=
  join_duplicate_then_leave shaId "sess1" 9 dupJoinData dupState dupSession
    memberP [hostP] (by decide) (by decide) (by decide) (by decide) (by decide)

/-- Claim C10 counterexample: when the steam_id being duplicated is the
host id, the subsequent leave does not merely drop the first matching
entry: the whole session is deleted, so the appended duplicate does not
survive anywhere.  The join itself still succeeds and appends a second
entry with the host steam_id (player list length 2). -/
theorem join_duplicate_host_leave_deletes_session :
    ((get_session "sess1"
        ((join_session shaId "sess1" 3 hostJoinData baseState).2)).map
      (fun s1 => s1.players.length) = some 2) ∧
    (remove_player "sess1" "host42"
        ((join_session shaId "sess1" 3 hostJoinData baseState).2)).1 = true ∧
    get_session "sess1"
      (remove_player "sess1" "host42"
        ((join_session shaId "sess1" 3 hostJoinData baseState).2)).2 = none := by
  decide

/-- The host_ip stored by a successful create, as seen in the 201 response. -/
def createdIp : CreateResult × ServerState → Option String
  | (CreateResult.created s, _) => some s.host_ip
  | _ => none

/-- Claim C9 (amended): whenever the connection peer address is observed or a
non-empty forwarding header is present, the stored host_ip is the first
entry of the X-Forwarded-For header when that header is present and
non-empty, otherwise the observed peer address, and the result is completely
independent of the client-supplied body host_ip.  (Only when no peer address
is observable and no forwarding header is sent does the body value reach the
stored host_ip — see the counterexample.) -/
theorem create_host_ip_server_derived (sha : String → String)
    (gen_id : String) (now : Int) (peername : Option String)
    (forwarded : Option String) (body : CreateData) (st : ServerState)
    (hsid : ∃ h, body.host_steam_id = some h)
    (havail : (∃ p, peername = some p) ∨ (∃ f, forwarded = some f ∧ f ≠ "")) :
    (∀ f, forwarded = some f → f ≠ "" →
      createdIp (create_session_handler sha gen_id now peername forwarded body st) =
        some (forwardedFirst f)) ∧
    ((forwarded = none ∨ forwarded = some "") → ∀ p, peername = some p →
      createdIp (create_session_handler sha gen_id now peername forwarded body st) =
        some p) ∧
    (∀ ip', create_session_handler sha gen_id now peername forwarded
        { body with host_ip := ip' } st =
      create_session_handler sha gen_id now peername forwarded body st) := by
  obtain ⟨h, hh⟩ := hsid
  refine ⟨?_, ?_, ?_⟩
  · intro f hf hfne
    subst hf
    cases peername with
    | none =>
      simp [create_session_handler, create_session, createdIp, hh, hfne]
    | some p =>
      simp [create_session_handler, create_session, createdIp, hh, hfne]
  · intro hfwd p hp
    subst hp
    rcases hfwd with hfwd | hfwd <;> subst hfwd <;>
      simp [create_session_handler, create_session, createdIp, hh]
  · intro ip'
    rcases havail with ⟨p, hp⟩ | ⟨f, hf, hfne⟩
    · subst hp
      cases forwarded with
      | none => simp [create_session_handler, hh]
      | some f =>
        by_cases hfe : f = ""
        · subst hfe
          simp [create_session_handler, hh]
        · simp [create_session_handler, hh, hfe]
    · subst hf
      cases peername with
      | none => simp [create_session_handler, hh, hfne]
      | some p => simp [create_session_handler, hh, hfne]

theorem create_host_ip_server_derived_witness :
    (∀ f, (some "1.2.3.4, 5.6.7.8" : Option String) = some f → f ≠ "" →
      createdIp (create_session_handler shaId "abc12345" 0
          (some "198.51.100.2") (some "1.2.3.4, 5.6.7.8")
          { emptyCreateData with host_steam_id := some "S1",
                                 host_ip := some "203.0.113.7" } initState) =
        some (forwardedFirst f)) ∧
    (((some "1.2.3.4, 5.6.7.8" : Option String) = none ∨
        (some "1.2.3.4, 5.6.7.8" : Option String) = some "") →
      ∀ p, (some "198.51.100.2" : Option String) = some p →
      createdIp (create_session_handler shaId "abc12345" 0
          (some "198.51.100.2") (some "1.2.3.4, 5.6.7.8")
          { emptyCreateData with host_steam_id := some "S1",
                                 host_ip := some "203.0.113.7" } initState) =
        some p) ∧
    (∀ ip', create_session_handler shaId "abc12345" 0
        (some "198.51.100.2") (some "1.2.3.4, 5.6.7.8")
        { { emptyCreateData with host_steam_id := some "S1",
                                 host_ip := some "203.0.113.7" } with host_ip := ip' } initState =
      create_session_handler shaId "abc12345" 0
        (some "198.51.100.2") (some "1.2.3.4, 5.6.7.8")
        { emptyCreateData with host_steam_id := some "S1",
                               host_ip := some "203.0.113.7" } initState) :=
  create_host_ip_server_derived shaId "abc12345" 0
    (some "198.51.100.2") (some "1.2.3.4, 5.6.7.8")
    { emptyCreateData with host_steam_id := some "S1",
                           host_ip := some "203.0.113.7" } initState
    ⟨"S1", rfl⟩ (Or.inl ⟨"198.51.100.2", rfl⟩)

/-- Claim C9 counterexample: with no observable peer address and no
forwarding header, the stored host_ip is exactly the client-supplied body
host_ip, so it is not true that the client value is never used. -/
theorem create_host_ip_client_value_leaks :
    createdIp (create_session_handler shaId "abc12345" 0 none none
      { emptyCreateData with host_steam_id := some "S1",
                             host_ip := some "203.0.113.7" } initState) =
      some "203.0.113.7" := by
  decide

/-- Claim C7 (amended): create performs no collision check on the generated
id, so uniqueness holds only when the freshly drawn id differs from every
live id: under that freshness assumption the new registry is the old one
with the new entry appended (no session removed or replaced), the stored
session carries the generated id, and ids remain pairwise distinct.  A
colliding generated id silently replaces the existing session — see the
counterexample. -/
theorem create_fresh_id_preserves_sessions (sha : String → String)
    (gen_id : String) (now : Int) (data : CreateData) (st : ServerState)
    (h : String) (hh : data.host_steam_id = some h)
    (hfresh : dictGet gen_id st.sessions = none)
    (hnd : (st.sessions.map Prod.fst).Nodup) :
    ∃ s, create_session sha gen_id now data st =
        (some s,
          { st with
            sessions := st.sessions ++ [(gen_id, s)],
            pending := st.pending ++ [⟨"session_created", EventData.sessionData s⟩] }) ∧
      s.session_id = gen_id ∧
      ((st.sessions ++ [(gen_id, s)]).map Prod.fst).Nodup := by
  have hnotin := not_mem_of_dictGet_eq_none gen_id st.sessions hfresh
  unfold create_session
  rw [hh]
  dsimp only
  rw [dictInsert_eq_append _ _ _ hfresh]
  refine ⟨_, rfl, rfl, ?_⟩
  rw [List.map_append]
  exact List.Nodup.append hnd (List.nodup_singleton _)
    (List.disjoint_singleton.mpr hnotin)

theorem create_fresh_id_preserves_sessions_witness :
    ∃ s, create_session shaId "bbbb" 5
        { emptyCreateData with host_steam_id := some "S3" } baseState =
        (some s,
          { baseState with
            sessions := baseState.sessions ++ [("bbbb", s)],
            pending := baseState.pending ++ [⟨"session_created", EventData.sessionData s⟩] }) ∧
      s.session_id = "bbbb" ∧
      ((baseState.sessions ++ [("bbbb", s)]).map Prod.fst).Nodup :=
  create_fresh_id_preserves_sessions shaId "bbbb" 5
    { emptyCreateData with host_steam_id := some "S3" } baseState "S3" rfl
    (by decide) (by decide)

/-- Old live session under id aaaa. -/
def oldSession : GameSession :=
  { baseSession with session_id := "aaaa", room_name := "old" }

/-- Registry fixture holding oldSession under id aaaa. -/
def collState : ServerState :=
  { baseState with sessions := [("aaaa", oldSession)] }

/-- Claim C7 counterexample: create draws its id from a truncated uuid4 and
never checks it against the live table, so a colliding generated id is
assigned again and silently replaces the previously live session: after the
create, the old session is gone and the table still has a single entry. -/
theorem create_id_collision_replaces_session :
    get_session "aaaa" collState = some oldSession ∧
    get_session "aaaa" (create_session shaId "aaaa" 0
        { emptyCreateData with host_steam_id := some "S2" } collState).2 ≠
      some oldSession ∧
    (create_session shaId "aaaa" 0
        { emptyCreateData with host_steam_id := some "S2" } collState).2.sessions.length = 1 := by
  decide

theorem create_session_pending (sha : String → String) (gen_id : String)
    (now : Int) (data : CreateData) (st : ServerState) :
    ∃ evs, (create_session sha gen_id now data st).2.pending = st.pending ++ evs ∧
      (create_session sha gen_id now data st).2.websockets = st.websockets := by
  unfold create_session
  split
  · exact ⟨[], by simp, rfl⟩
  · exact ⟨_, rfl, rfl⟩

theorem update_session_pending (sid : String) (now : Int) (d : UpdateData)
    (st : ServerState) :
    ∃ evs, (update_session sid now d st).2.pending = st.pending ++ evs ∧
      (update_session sid now d st).2.websockets = st.websockets := by
  unfold update_session
  cases hg : dictGet sid st.sessions with
  | none => exact ⟨[], by simp, rfl⟩
  | some s => exact ⟨_, rfl, rfl⟩

theorem heartbeat_pending (sid : String) (now : Int) (st : ServerState) :
    ∃ evs, (heartbeat sid now st).2.pending = st.pending ++ evs ∧
      (heartbeat sid now st).2.websockets = st.websockets := by
  unfold heartbeat
  cases hg : dictGet sid st.sessions with
  | none => exact ⟨[], by simp, rfl⟩
  | some s => exact ⟨[], by simp, rfl⟩

theorem delete_session_pending (sid : String) (st : ServerState) :
    ∃ evs, (delete_session sid st).2.pending = st.pending ++ evs ∧
      (delete_session sid st).2.websockets = st.websockets := by
  unfold delete_session
  split
  · exact ⟨_, rfl, rfl⟩
  · exact ⟨[], by simp, rfl⟩

theorem add_player_pending (sid : String) (t : Int) (d : JoinData)
    (asb : Bool) (st : ServerState) :
    ∃ evs, (add_player sid t d asb st).2.pending = st.pending ++ evs ∧
      (add_player sid t d asb st).2.websockets = st.websockets := by
  unfold add_player
  split
  · exact ⟨[], by simp, rfl⟩
  · split
    · split
      · exact ⟨[], by simp, rfl⟩
      · exact ⟨_, rfl, rfl⟩
    · split
      · exact ⟨[], by simp, rfl⟩
      · exact ⟨_, rfl, rfl⟩

theorem join_session_state (sha : String → String) (sid : String) (t : Int)
    (d : JoinData) (st : ServerState) :
    (join_session sha sid t d st).2 = st ∨
    (join_session sha sid t d st).2 =
      (add_player sid t d (d.as_spectator.getD false) st).2 := by
  unfold join_session
  cases hg : dictGet sid st.sessions with
  | none => exact Or.inl rfl
  | some s =>
    dsimp only
    by_cases hpw : s.password_hash ≠ "" ∧
        sha (d.password.getD "") ≠ s.password_hash
    · rw [if_pos hpw]
      exact Or.inl rfl
    · rw [if_neg hpw]
      try dsimp only
      cases hap : add_player sid t d (d.as_spectator.getD false) st with
      | mk o st' =>
        cases o
        · exact Or.inr rfl
        · exact Or.inr rfl

theorem remove_player_pending (sid steam_id : String) (st : ServerState) :
    ∃ evs, (remove_player sid steam_id st).2.pending = st.pending ++ evs ∧
      (remove_player sid steam_id st).2.websockets = st.websockets := by
  unfold remove_player
  split
  · exact ⟨[], by simp, rfl⟩
  · split
    · exact ⟨[], by simp, rfl⟩
    · dsimp only
      split
      · unfold delete_session
        rw [dictGet_dictInsert_self]
        simp only [Option.isSome_some, if_true]
        exact ⟨_, rfl, trivial⟩
      · exact ⟨_, rfl, rfl⟩

theorem foldl_delete_pending (ks : List String) (st : ServerState) :
    ∃ evs, (ks.foldl (fun acc sid => (delete_session sid acc).2) st).pending =
        st.pending ++ evs ∧
      (ks.foldl (fun acc sid => (delete_session sid acc).2) st).websockets =
        st.websockets := by
  induction ks generalizing st with
  | nil => exact ⟨[], by simp, rfl⟩
  | cons k ks ih =>
    obtain ⟨evs1, h1, h2⟩ := delete_session_pending k st
    obtain ⟨evs2, h3, h4⟩ := ih ((delete_session k st).2)
    refine ⟨evs1 ++ evs2, ?_, ?_⟩
    · rw [List.foldl_cons, h3, h1, List.append_assoc]
    · rw [List.foldl_cons, h4, h2]

/-- Claim C2 (amended): broadcast fan-out is deferred, not synchronous: each
mutation schedules its broadcast as a fire-and-forget task, appending the
envelopes of that mutation to the tail of the task queue, so the queue lists
events in exactly mutation commit order; during the mutation itself no
subscriber receives anything (the subscriber inboxes are untouched), and per
subscriber receive order matches mutation order only once the queued tasks
run without interleaving. -/
theorem broadcasts_deferred_in_commit_order (sha : String → String)
    (op : RegistryOp) (st : ServerState) :
    ∃ evs, (applyOp sha op st).pending = st.pending ++ evs ∧
      (applyOp sha op st).websockets = st.websockets := by
  cases op with
  | create gen_id now data => exact create_session_pending sha gen_id now data st
  | update sid now d => exact update_session_pending sid now d st
  | delete sid => exact delete_session_pending sid st
  | join sid t d =>
    show ∃ evs, (join_session sha sid t d st).2.pending = st.pending ++ evs ∧
      (join_session sha sid t d st).2.websockets = st.websockets
    rcases join_session_state sha sid t d st with h | h
    · exact ⟨[], by rw [h]; simp, by rw [h]⟩
    · rw [h]
      exact add_player_pending sid t d (d.as_spectator.getD false) st
  | leave sid pid => exact remove_player_pending sid pid st
  | beat sid now => exact heartbeat_pending sid now st
  | cleanup now => exact foldl_delete_pending _ st

/-- Registry fixture with one connected subscriber that has received
nothing yet. -/
def wsState : ServerState := { initState with websockets := [[]] }

/-- Claim C2 counterexample: fan-out is not invoked synchronously inside the
mutation.  After a create with one connected subscriber, the mutation has
committed (one live session) and produced its envelope, yet the subscriber
has received nothing: the envelope sits in the queue of fire-and-forget
tasks scheduled with asyncio.create_task, and reaches the subscriber only
when those tasks later run. -/
theorem broadcast_not_synchronous_counterexample :
    (create_session shaId "abc12345" 0
        { emptyCreateData with host_steam_id := some "S1" } wsState).2.sessions.length = 1 ∧
    (create_session shaId "abc12345" 0
        { emptyCreateData with host_steam_id := some "S1" } wsState).2.websockets = [[]] ∧
    (create_session shaId "abc12345" 0
        { emptyCreateData with host_steam_id := some "S1" } wsState).2.pending.length = 1 ∧
    (runPendingTasks (create_session shaId "abc12345" 0
        { emptyCreateData with host_steam_id := some "S1" } wsState).2).websockets.map
      List.length = [1] := by
  decide

theorem mem_of_dictGet_eq_some (k : String) (v : GameSession)
    (l : List (String × GameSession)) (h : dictGet k l = some v) :
    (k, v) ∈ l := by
  induction l with
  | nil => simp [dictGet] at h
  | cons e rest ih =>
    obtain ⟨k0, v0⟩ := e
    by_cases h0 : k0 = k
    · subst h0
      simp [dictGet] at h
      subst h
      exact List.mem_cons_self _ _
    · simp only [dictGet, if_neg h0] at h
      exact List.mem_cons_of_mem _ (ih h)

theorem stateInv_dictInsert (k : String) (v : GameSession)
    (l : List (String × GameSession)) (hinv : ∀ e ∈ l, countersOk e.2)
    (hv : countersOk v) : ∀ e ∈ dictInsert k v l, countersOk e.2 := by
  intro e he
  rcases mem_dictInsert k v e l he with he' | he'
  · rw [he']
    exact hv
  · exact hinv e he'

theorem stateInv_dictErase (k : String) (l : List (String × GameSession))
    (hinv : ∀ e ∈ l, countersOk e.2) : ∀ e ∈ dictErase k l, countersOk e.2 :=
  fun e he => hinv e (mem_dictErase k e l he)

theorem stateInv_create (sha : String → String) (gen_id : String) (now : Int)
    (data : CreateData) (st : ServerState) (hinv : stateInv st)
    (h1 : 1 ≤ min (data.max_pilots.getD 6) 6)
    (h2 : 0 ≤ min (data.max_spectators.getD 15) 15) :
    stateInv (create_session sha gen_id now data st).2 := by
  cases hh : data.host_steam_id with
  | none =>
    unfold create_session
    rw [hh]
    exact hinv
  | some h =>
    unfold create_session
    rw [hh]
    unfold stateInv
    intro e he
    refine stateInv_dictInsert _ _ _ hinv ?_ e he
    refine ⟨?_, ?_, h1, h2⟩
    · simp [pilotCount]
    · simp [spectatorCount]

theorem stateInv_update (sid : String) (now : Int) (d : UpdateData)
    (st : ServerState) (hinv : stateInv st)
    (hcp : d.current_pilots = none) (hcs : d.current_spectators = none) :
    stateInv (update_session sid now d st).2 := by
  unfold update_session
  cases hg : dictGet sid st.sessions with
  | none => exact hinv
  | some s =>
    unfold stateInv
    intro e he
    refine stateInv_dictInsert _ _ _ hinv ?_ e he
    have hc := hinv (sid, s) (mem_of_dictGet_eq_some _ _ _ hg)
    rw [applyUpdate_eq, hcp, hcs]
    unfold countersOk at hc ⊢
    simpa using hc

theorem stateInv_heartbeat (sid : String) (now : Int) (st : ServerState)
    (hinv : stateInv st) : stateInv (heartbeat sid now st).2 := by
  unfold heartbeat
  cases hg : dictGet sid st.sessions with
  | none => exact hinv
  | some s =>
    unfold stateInv
    intro e he
    refine stateInv_dictInsert _ _ _ hinv ?_ e he
    have hc := hinv (sid, s) (mem_of_dictGet_eq_some _ _ _ hg)
    unfold countersOk at hc ⊢
    simpa using hc

theorem stateInv_delete (sid : String) (st : ServerState)
    (hinv : stateInv st) : stateInv (delete_session sid st).2 := by
  unfold delete_session
  split
  · exact fun e he => stateInv_dictErase _ _ hinv e he
  · exact hinv

theorem stateInv_add_player (sid : String) (t : Int) (d : JoinData)
    (asb : Bool) (st : ServerState) (hinv : stateInv st) :
    stateInv (add_player sid t d asb st).2 := by
  unfold add_player
  split
  · exact hinv
  next session heq =>
    have hc : countersOk session :=
      hinv (sid, session) (mem_of_dictGet_eq_some _ _ _ heq)
    obtain ⟨hc1, hc2, hc3, hc4⟩ := hc
    split
    next hasb =>
      subst hasb
      split
      next hfull => exact hinv
      next hfull =>
        have hlt : session.current_spectators < session.max_spectators := by
          simp only [GameSession.is_spectator_full, decide_eq_true_eq] at hfull
          omega
        unfold stateInv
        intro e he
        refine stateInv_dictInsert _ _ _ hinv ?_ e he
        unfold countersOk
        dsimp only
        refine ⟨?_, ?_, hc3, ?_⟩
        · rw [pilotCount_append]
          simp [pilotCount, hc1]
        · rw [spectatorCount_append]
          simp [spectatorCount, hc2]
        · omega
    next hasb =>
      have hasb2 : asb = false := by
        cases asb
        · rfl
        · exact absurd rfl hasb
      subst hasb2
      split
      next hfull => exact hinv
      next hfull =>
        have hlt : session.current_pilots < session.max_pilots := by
          simp only [GameSession.is_full, decide_eq_true_eq] at hfull
          omega
        unfold stateInv
        intro e he
        refine stateInv_dictInsert _ _ _ hinv ?_ e he
        unfold countersOk
        dsimp only
        refine ⟨?_, ?_, ?_, hc4⟩
        · rw [pilotCount_append]
          simp [pilotCount, hc1]
        · rw [spectatorCount_append]
          simp [spectatorCount, hc2]
        · omega

theorem stateInv_remove_player (sid steam_id : String) (st : ServerState)
    (hinv : stateInv st) : stateInv (remove_player sid steam_id st).2 := by
  unfold remove_player
  split
  · exact hinv
  next session heq =>
    split
    · exact hinv
    next removed rest hr =>
      have hc : countersOk session :=
        hinv (sid, session) (mem_of_dictGet_eq_some _ _ _ heq)
      obtain ⟨hc1, hc2, hc3, hc4⟩ := hc
      obtain ⟨hp1, hp2⟩ := removeFirst_counts _ _ _ _ hr
      have hco : countersOk (if removed.is_spectator then
          { session with players := rest,
                         current_spectators := session.current_spectators - 1 }
        else { session with players := rest,
                            current_pilots := session.current_pilots - 1 }) := by
        by_cases hqs : removed.is_spectator = true
        · rw [if_pos hqs] at hp1 hp2 ⊢
          unfold countersOk
          dsimp only
          refine ⟨?_, ?_, ?_, ?_⟩ <;> omega
        · rw [if_neg hqs] at hp1 hp2 ⊢
          unfold countersOk
          dsimp only
          refine ⟨?_, ?_, ?_, ?_⟩ <;> omega
      dsimp only
      split
      next hh =>
        apply stateInv_delete
        unfold stateInv
        intro e he
        exact stateInv_dictInsert _ _ _ hinv hco e he
      next hh =>
        unfold stateInv
        intro e he
        exact stateInv_dictInsert _ _ _ hinv hco e he

theorem stateInv_foldl_delete (ks : List String) (st : ServerState)
    (hinv : stateInv st) :
    stateInv (ks.foldl (fun acc sid => (delete_session sid acc).2) st) := by
  induction ks generalizing st with
  | nil => exact hinv
  | cons k ks ih => exact ih _ (stateInv_delete k st hinv)

/-- Claim C1 (amended): the counter invariant — for every live session,
current_pilots equals the number of non-spectator entries of its player
list, current_spectators the number of spectator entries, and both respect
their ceilings — is preserved by every registry operation, provided a create
does not request an effective pilot ceiling below 1 (the host) or a negative
spectator ceiling, and an update input does not set the raw current_pilots /
current_spectators fields.  Without those provisos the code violates the
invariant — see the counterexample. -/
theorem registry_counters_invariant_preserved (sha : String → String)
    (op : RegistryOp) (st : ServerState) (hinv : stateInv st)
    (hok : opOk op) : stateInv (applyOp sha op st) := by
  cases op with
  | create gen_id now data =>
    exact stateInv_create sha gen_id now data st hinv hok.1 hok.2
  | update sid now d => exact stateInv_update sid now d st hinv hok.1 hok.2
  | delete sid => exact stateInv_delete sid st hinv
  | join sid t d =>
    show stateInv (join_session sha sid t d st).2
    rcases join_session_state sha sid t d st with h | h
    · rw [h]
      exact hinv
    · rw [h]
      exact stateInv_add_player sid t d (d.as_spectator.getD false) st hinv
  | leave sid pid => exact stateInv_remove_player sid pid st hinv
  | beat sid now => exact stateInv_heartbeat sid now st hinv
  | cleanup now => exact stateInv_foldl_delete _ st hinv

theorem registry_counters_invariant_preserved_witness :
    stateInv baseState ∧
    opOk (RegistryOp.join "sess1" 4 dupJoinData) ∧
    stateInv (applyOp shaId (RegistryOp.join "sess1" 4 dupJoinData) baseState) :=
  ⟨by decide, by decide,
    registry_counters_invariant_preserved shaId
      (RegistryOp.join "sess1" 4 dupJoinData) baseState (by decide) (by decide)⟩

/-- Claim C1 counterexample: the invariant does not hold after every create:
`max_pilots` is only clamped from above (`min(·, 6)`), so a create request
asking for `max_pilots = 0` yields a session with `current_pilots = 1 >
max_pilots = 0`, violating `current_pilots ≤ max_pilots` immediately after
the operation.  (An update setting `current_pilots` directly can likewise
break the count equality.) -/
theorem registry_counters_invariant_violated_by_create :
    ¬ stateInv (applyOp shaId (RegistryOp.create "cafe0000" 0
      { emptyCreateData with host_steam_id := some "S1",
                             max_pilots := some 0 }) initState) := by
  decide

theorem contains_eq_true_of_mem (a : String) (l : List String) (h : a ∈ l) :
    l.contains a = true := by
  induction l with
  | nil => simp at h
  | cons b l ih =>
    simp only [List.contains_cons, Bool.or_eq_true, beq_iff_eq]
    rcases List.mem_cons.mp h with h' | h'
    · exact Or.inl h'
    · exact Or.inr (ih h')

theorem mem_of_contains_eq_true (a : String) (l : List String)
    (h : l.contains a = true) : a ∈ l := by
  induction l with
  | nil => simp [List.contains_cons] at h
  | cons b l ih =>
    simp only [List.contains_cons, Bool.or_eq_true, beq_iff_eq] at h
    rcases h with h' | h'
    · exact h' ▸ List.mem_cons_self _ _
    · exact List.mem_cons_of_mem _ (ih h')

theorem dictGet_eq_some_of_mem (k : String) (v : GameSession)
    (l : List (String × GameSession)) (hnd : (l.map Prod.fst).Nodup)
    (hm : (k, v) ∈ l) : dictGet k l = some v := by
  induction l with
  | nil => simp at hm
  | cons e rest ih =>
    obtain ⟨k0, v0⟩ := e
    simp only [List.map_cons, List.nodup_cons] at hnd
    rcases List.mem_cons.mp hm with h | h
    · rw [← h]
      simp [dictGet]
    · have hk : k0 ≠ k := by
        intro hEq
        exact hnd.1 (hEq ▸ List.mem_map.mpr ⟨(k, v), h, rfl⟩)
      simp [dictGet, hk, ih hnd.2 h]

theorem dictGet_filter_of_pos (p : String × GameSession → Bool) (k : String)
    (v : GameSession) (l : List (String × GameSession))
    (hnd : (l.map Prod.fst).Nodup) (hm : (k, v) ∈ l) (hp : p (k, v) = true) :
    dictGet k (l.filter p) = some v := by
  have hnd' : ((l.filter p).map Prod.fst).Nodup :=
    List.Nodup.sublist (List.Sublist.map Prod.fst (List.filter_sublist l)) hnd
  exact dictGet_eq_some_of_mem k v _ hnd' (List.mem_filter.mpr ⟨hm, hp⟩)

theorem dictGet_filter_of_neg (p : String × GameSession → Bool) (k : String)
    (v : GameSession) (l : List (String × GameSession))
    (hnd : (l.map Prod.fst).Nodup) (hm : (k, v) ∈ l) (hp : p (k, v) = false) :
    dictGet k (l.filter p) = none := by
  apply dictGet_eq_none_of_not_mem
  intro hmem
  obtain ⟨e, he, hk⟩ := List.mem_map.mp hmem
  obtain ⟨k1, v1⟩ := e
  dsimp only at hk
  subst hk
  have he1 := List.mem_of_mem_filter he
  have hpe := List.of_mem_filter he
  have hv : v1 = v := by
    have h1 := dictGet_eq_some_of_mem _ _ _ hnd he1
    have h2 := dictGet_eq_some_of_mem _ _ _ hnd hm
    rw [h1] at h2
    exact (Option.some.injEq _ _).mp h2
  rw [hv] at hpe
  rw [hpe] at hp
  simp at hp

theorem mem_keys_dictErase_of_ne (k k' : String)
    (l : List (String × GameSession)) (hne : k' ≠ k)
    (hm : k' ∈ l.map Prod.fst) : k' ∈ (dictErase k l).map Prod.fst := by
  induction l with
  | nil => simp at hm
  | cons e rest ih =>
    obtain ⟨k0, v0⟩ := e
    rcases List.mem_cons.mp hm with h | h
    · dsimp only at h
      subst h
      simp [dictErase, hne]
    · by_cases h0 : k0 = k
      · subst h0
        simpa [dictErase] using h
      · simp only [dictErase, if_neg h0, List.map_cons, List.mem_cons]
        exact Or.inr (ih h)

theorem filter_dictErase (k : String) (ks : List String)
    (l : List (String × GameSession)) (hnd : (l.map Prod.fst).Nodup) :
    (dictErase k l).filter (fun e => !(ks.contains e.1)) =
      l.filter (fun e => !((k :: ks).contains e.1)) := by
  induction l with
  | nil => simp [dictErase]
  | cons e rest ih =>
    obtain ⟨k0, v0⟩ := e
    simp only [List.map_cons, List.nodup_cons] at hnd
    by_cases h0 : k0 = k
    · subst h0
      simp only [dictErase, List.filter_cons, List.contains_cons,
        beq_self_eq_true, Bool.true_or, Bool.not_true, Bool.false_eq_true,
        if_false, if_true, eq_self_iff_true]
      apply List.filter_congr
      intro e he
      have hne : e.1 ≠ k0 := by
        intro hEq
        exact hnd.1 (hEq ▸ List.mem_map.mpr ⟨e, he, rfl⟩)
      have hbeq2 : (e.1 == k0) = false := by
        simp [hne]
      simp [hbeq2]
    · have hbeq : (k0 == k) = false := by
        simp [h0]
      simp only [dictErase, if_neg h0, List.filter_cons, List.contains_cons,
        hbeq, Bool.false_or]
      rw [ih hnd.2]
      simp only [List.contains_cons]
      try rfl

theorem foldl_delete_spec (ks : List String) (st : ServerState)
    (hmem : ∀ k ∈ ks, k ∈ st.sessions.map Prod.fst) (hknd : ks.Nodup)
    (hnd : (st.sessions.map Prod.fst).Nodup) :
    (ks.foldl (fun acc sid => (delete_session sid acc).2) st).sessions =
      st.sessions.filter (fun e => !(ks.contains e.1)) ∧
    (ks.foldl (fun acc sid => (delete_session sid acc).2) st).pending =
      st.pending ++ ks.map
        (fun sid => (⟨"session_deleted", EventData.sessionIdData sid⟩ : Envelope)) := by
  induction ks generalizing st with
  | nil => simp
  | cons k ks ih =>
    obtain ⟨hk0, hks⟩ := List.forall_mem_cons.mp hmem
    obtain ⟨hknotin, hksnd⟩ := List.nodup_cons.mp hknd
    have hsome : (dictGet k st.sessions).isSome :=
      dictGet_isSome_of_mem _ _ hk0
    have hdel : (delete_session k st).2 =
        { st with
          sessions := dictErase k st.sessions,
          pending := st.pending ++ [⟨"session_deleted", EventData.sessionIdData k⟩] } := by
      unfold delete_session
      rw [if_pos hsome]
    rw [List.foldl_cons, hdel]
    have hmem2 : ∀ k' ∈ ks, k' ∈ (dictErase k st.sessions).map Prod.fst := by
      intro k' hk'
      have hne : k' ≠ k := fun hEq => hknotin (hEq ▸ hk')
      exact mem_keys_dictErase_of_ne k k' st.sessions hne (hks k' hk')
    obtain ⟨h1, h2⟩ := ih
      { st with
        sessions := dictErase k st.sessions,
        pending := st.pending ++ [⟨"session_deleted", EventData.sessionIdData k⟩] }
      hmem2 hksnd (keys_dictErase_nodup k st.sessions hnd)
    constructor
    · rw [h1]
      exact filter_dictErase k ks st.sessions hnd
    · rw [h2]
      simp

/-- Claim C8: after a sweep cycle, every session whose last_heartbeat was
older than the configured timeout at the start of the cycle has been deleted
through the registry delete path — a session_deleted envelope carrying its
id is emitted — and every session within the timeout remains untouched. -/
theorem cleanup_deletes_exactly_stale (now : Int) (st : ServerState)
    (hnd : (st.sessions.map Prod.fst).Nodup) (sid : String) (s : GameSession)
    (hmem : (sid, s) ∈ st.sessions) :
    (now - s.last_heartbeat > st.session_timeout →
      get_session sid (cleanup_stale_sessions now st) = none ∧
      (⟨"session_deleted", EventData.sessionIdData sid⟩ : Envelope) ∈
        (cleanup_stale_sessions now st).pending) ∧
    (¬ now - s.last_heartbeat > st.session_timeout →
      get_session sid (cleanup_stale_sessions now st) = some s) := by
  set stale := (st.sessions.filter
    (fun e => now - e.2.last_heartbeat > st.session_timeout)).map Prod.fst with hstale
  have hcl : cleanup_stale_sessions now st =
      stale.foldl (fun acc sid => (delete_session sid acc).2) st := rfl
  have hstmem : ∀ k ∈ stale, k ∈ st.sessions.map Prod.fst := by
    intro k hk
    rw [hstale] at hk
    obtain ⟨e, he, hk'⟩ := List.mem_map.mp hk
    exact List.mem_map.mpr ⟨e, List.mem_of_mem_filter he, hk'⟩
  have hstnd : stale.Nodup := by
    rw [hstale]
    exact List.Nodup.sublist (List.Sublist.map Prod.fst (List.filter_sublist _)) hnd
  obtain ⟨h1, h2⟩ := foldl_delete_spec stale st hstmem hstnd hnd
  constructor
  · intro hs
    have hsidmem : sid ∈ stale := by
      rw [hstale]
      refine List.mem_map.mpr ⟨(sid, s), List.mem_filter.mpr ⟨hmem, ?_⟩, rfl⟩
      simpa using hs
    constructor
    · show dictGet sid (cleanup_stale_sessions now st).sessions = none
      rw [hcl, h1]
      refine dictGet_filter_of_neg _ sid s _ hnd hmem ?_
      show (!stale.contains sid) = false
      rw [contains_eq_true_of_mem sid stale hsidmem]
      rfl
    · rw [hcl, h2]
      exact List.mem_append_right _ (List.mem_map.mpr ⟨sid, hsidmem, rfl⟩)
  · intro hs
    have hnot : sid ∉ stale := by
      intro hin
      rw [hstale] at hin
      obtain ⟨e, he, hk⟩ := List.mem_map.mp hin
      obtain ⟨k1, v1⟩ := e
      dsimp only at hk
      subst hk
      have he1 := List.mem_of_mem_filter he
      have hpe := List.of_mem_filter he
      have hv : v1 = s := by
        have ha := dictGet_eq_some_of_mem _ _ _ hnd he1
        have hb := dictGet_eq_some_of_mem _ _ _ hnd hmem
        rw [ha] at hb
        exact (Option.some.injEq _ _).mp hb
      rw [hv] at hpe
      simp only [decide_eq_true_eq] at hpe
      exact hs hpe
    have hcont : stale.contains sid = false := by
      cases hb : stale.contains sid
      · rfl
      · exact absurd (mem_of_contains_eq_true _ _ hb) hnot
    show dictGet sid (cleanup_stale_sessions now st).sessions = some s
    rw [hcl, h1]
    refine dictGet_filter_of_pos _ sid s _ hnd hmem ?_
    show (!stale.contains sid) = true
    rw [hcont]
    rfl

theorem cleanup_deletes_exactly_stale_witness :
    (200 - baseSession.last_heartbeat > baseState.session_timeout →
      get_session "sess1" (cleanup_stale_sessions 200 baseState) = none ∧
      (⟨"session_deleted", EventData.sessionIdData "sess1"⟩ : Envelope) ∈
        (cleanup_stale_sessions 200 baseState).pending) ∧
    (¬ 200 - baseSession.last_heartbeat > baseState.session_timeout →
      get_session "sess1" (cleanup_stale_sessions 200 baseState) = some baseSession) :=
  cleanup_deletes_exactly_stale 200 baseState (by decide) "sess1" baseSession
    (by decide)
